import Mathlib

/-!
# Verification of the Parcel–Layer Intersection & Coverage Aggregation Engine

Shallow embedding of the core of `cua_latresne`:

* `CUA_GENERATION/cua_builder_utils.py` — the coverage normalizer
  (`normalize_pairs`);
* `intersections_parcelle.py` and `INTERSECTIONS/intersections_parcelle.py` —
  the layer-catalog loader (`load_layer_map`), the spatial intersection
  executor (`_intersect_one_parcel`, in its two variants), the parcel
  reference parser (`_parse_parcel_refs`) and the batch runner (`run`).

Python floats are embedded as rationals (`ℚ`); the spatial store and the
external geometry services are modelled as oracles (records of functions),
with fallible queries returning `Except String _`.
-/

namespace CuaLatresne

/-! ## Coverage normalizer (`cua_builder_utils.normalize_pairs`)

```python
def normalize_pairs(pairs):
    agg = defaultdict(float)
    for v, pct in pairs:
        if v is None: v = ""
        agg[str(v)] += float(pct or 0.0)
    norm = [(v, min(p, 100.0)) for v, p in agg.items()]
    norm.sort(key=lambda x: x[1], reverse=True)
    total = sum(p for _, p in norm)
    if total > 100.0001:
        norm = [(v, p * 100.0 / total) for v, p in norm]
    return norm
```

A Python dict keeps first-insertion order, so `agg` is embedded as an
association list updated in place for an existing key and extended at the
end for a new one.  `list.sort(key=..., reverse=True)` is a stable
descending sort by the percent component, which is exactly
`List.insertionSort covGe`. -/

/-- The descending comparison used by `norm.sort(key=lambda x: x[1], reverse=True)`. -/
def covGe (a b : String × ℚ) : Prop := b.2 ≤ a.2

instance : DecidableRel covGe := fun a b => inferInstanceAs (Decidable (b.2 ≤ a.2))

instance : IsTotal (String × ℚ) covGe := ⟨fun a b => le_total b.2 a.2⟩

instance : IsTrans (String × ℚ) covGe := ⟨fun _ _ _ h h' => le_trans h' h⟩

/-- One step of `agg[str(v)] += float(pct or 0.0)` on the ordered
association list representing the Python dict. -/
def dictAdd (acc : List (String × ℚ)) (v : String) (p : ℚ) : List (String × ℚ) :=
  if acc.any (fun kv => kv.1 = v) then
    acc.map (fun kv => if kv.1 = v then (kv.1, kv.2 + p) else kv)
  else
    acc ++ [(v, p)]

/-- The `agg` loop of `normalize_pairs`. -/
def aggPairs (pairs : List (String × ℚ)) : List (String × ℚ) :=
  pairs.foldl (fun acc vp => dictAdd acc vp.1 vp.2) []

/-- `cua_builder_utils.normalize_pairs`, embedded over `ℚ`. -/
def normalize_pairs (pairs : List (String × ℚ)) : List (String × ℚ) :=
  let agg := aggPairs pairs
  let norm := agg.map (fun vp => (vp.1, min vp.2 100))
  let sorted := List.insertionSort covGe norm
  let total := (sorted.map (fun vp => vp.2)).sum
  if 100 + 1 / 10000 < total then
    sorted.map (fun vp => (vp.1, vp.2 * 100 / total))
  else
    sorted

/-! ## Data model of the intersection engine (`intersections_parcelle.py`)

The spatial store (Supabase/PostGIS) and the IGN WFS service are external
collaborators; they are modelled as oracles.  Queries that the Python code
runs inside `eng.begin()` blocks may raise (SQL error, timeout), so the
corresponding oracle fields return `Except String _`. -/

/-- A GeoJSON geometry, kept opaque (`json.dumps` of the parcel geometry). -/
abbrev Geom := String

/-- One entry of the layer catalog, as produced by `load_layer_map`. -/
structure LayerConfig where
  schema : String
  table : String
  geomCol : String
  keep : List String
  coverageBy : List String
deriving DecidableEq, Repr

/-- The value of a `coverage_by` key in the raw `mapping.json`: absent, a
single comma-delimited string, or already a JSON list of strings. -/
inductive CovBy where
  | missing : CovBy
  | str (s : String) : CovBy
  | list (l : List String) : CovBy
deriving DecidableEq

/-- A raw `mapping.json` entry (the fields `load_layer_map` reads). -/
structure RawEntry where
  geom : Option String
  keep : List String
  coverage_by : CovBy
deriving DecidableEq

/-- Python `s.split(",")` on the character list of a string: split at every
comma, keeping empty pieces (so `"".split(",") == [""]`). -/
def splitOnComma : List Char → List (List Char)
  | [] => [[]]
  | c :: cs =>
    match splitOnComma cs with
    | [] => [[c]]
    | r :: rs => if c = ',' then [] :: r :: rs else (c :: r) :: rs

/-- Python `s.strip()`: drop leading and trailing whitespace. -/
def pyStrip (l : List Char) : List Char :=
  ((l.dropWhile Char.isWhitespace).reverse.dropWhile Char.isWhitespace).reverse

/-- `fq.split(".", 1)` on characters: the part before the first `'.'` and
the rest (only used when a `'.'` is present). -/
def splitDotOnce (l : List Char) : List Char × List Char :=
  (l.takeWhile (fun c => c ≠ '.'), (l.dropWhile (fun c => c ≠ '.')).tail)

/-- `load_layer_map`, embedded on an ordered association list standing for the
parsed JSON object.  An entry whose key has no `'.'` is skipped
(`if "." not in fq: continue`); a string-valued `coverage_by` is split on
commas, stripped, with empty pieces removed
(`[c.strip() for c in coverage_by.split(",") if c.strip()]`). -/
def loadEntry (fq : String) (entry : RawEntry) : Option LayerConfig :=
  if fq.data.contains '.' then
    some
      { schema := String.mk (splitDotOnce fq.data).1
        table := String.mk (splitDotOnce fq.data).2
        geomCol := entry.geom.getD "geom"
        keep := entry.keep
        coverageBy :=
          match entry.coverage_by with
          | CovBy.missing => []
          | CovBy.list l => l
          | CovBy.str s =>
            (((splitOnComma s.data).map (fun c => String.mk (pyStrip c))).filter
              (fun c => c ≠ "")) }
  else
    none

/-- The full catalog load: one pass of `loadEntry` over the raw object. -/
def load_layer_map (raw : List (String × RawEntry)) : List LayerConfig :=
  raw.filterMap (fun kv => loadEntry kv.1 kv.2)

/-- A row of `AREA_SQL_PARCEL`: feature id, intersected area, parcel area
(both areas may be SQL `NULL`, hence `Option`). -/
structure AreaRow where
  id : String
  interAreaM2 : Option ℚ
  parcelAreaM2 : Option ℚ
deriving DecidableEq

/-- A row of the per-attribute coverage aggregation query. -/
structure CovRow where
  value : String
  interAreaM2 : Option ℚ
deriving DecidableEq

/-- The spatial-store oracle.  `existingCols` is
`list_existing_columns` (information-schema introspection); the other four
are the per-layer sub-queries, which may fail. -/
structure Db where
  existingCols : String → String → List String
  countQ : Geom → LayerConfig → Except String Nat
  valuesQ : Geom → LayerConfig → String → Nat → Except String (List (Option String))
  areaQ : Geom → LayerConfig → Option String → Except String (List AreaRow)
  covQ : Geom → LayerConfig → String → Except String (List CovRow)

/-- One element of a layer's `surfaces` list. -/
structure SurfaceEntry where
  id : String
  interAreaM2 : ℚ
  pctOfParcel : Option ℚ
deriving DecidableEq

/-- One element of a coverage distribution
(`{"value": ..., "inter_area_m2": ..., "pct_of_parcel": ...}`). -/
structure CovEntry where
  value : String
  interAreaM2 : ℚ
  pctOfParcel : ℚ
deriving DecidableEq

/-- One entry of a `ParcelReport`'s `results` list (an IntersectionResult). -/
structure LayerResult where
  nom : String
  schema : String
  table : String
  geomCol : String
  srid : Nat
  count : Nat
  values : List (String × List String)
  surfaces : List SurfaceEntry
  coverage : List (String × List CovEntry)
  parcelAreaM2 : Option ℚ
deriving DecidableEq

/-- The per-parcel report assembled at the end of `_intersect_one_parcel`. -/
structure ParcelReport where
  label : String
  layersWithHits : Nat
  results : List LayerResult
deriving DecidableEq

/-- One element of the batch runner's `all_reports` list: either a full
report or the error placeholder appended when the parcel is not found. -/
inductive ParcelEntry where
  | report (r : ParcelReport) : ParcelEntry
  | error (label : String) (msg : String) : ParcelEntry
deriving DecidableEq

/-- The parcel feature fetched from the IGN WFS (`locate_parcel_feature`):
its geometry and the `section` / `numero` properties used for the label. -/
structure ParcelFeature where
  geometry : Geom
  sec : String
  numero : String
deriving DecidableEq

/-- The sub-queries issued while processing one layer, in program order;
used to state which queries run for a zero-hit layer. -/
inductive Query where
  | cols (schema table : String) : Query
  | count (schema table : String) : Query
  | values (schema table col : String) : Query
  | area (schema table : String) : Query
  | cov (schema table col : String) : Query
deriving DecidableEq

/-! ## Spatial Intersection Executor

Both variants of `_intersect_one_parcel` are embedded:

* `Root` — top-level `intersections_parcelle.py` (imported by
  `cua_service.py`): no `try/except` around a layer's sub-queries, so any
  query failure propagates out of the whole parcel;
* `Pkg` — `INTERSECTIONS/intersections_parcelle.py` (imported by
  `cua_orchestrator.py`): the per-layer body is wrapped in
  `try: ... except Exception: continue`.

Each per-layer processing function also returns the trace of sub-queries it
issued, mirroring the sequence of `con.execute` calls. -/

/-- The `parcel_area_m2` / `surfaces` loop over the area rows:
`parcel_area_m2` is taken from the first row, only strictly positive
intersection areas are kept, and the percent is `None` when the parcel area
is falsy (`None` or `0.0`). -/
def buildSurfaces (pa0 : Option ℚ) : List AreaRow → Option ℚ × List SurfaceEntry
  | [] => (pa0, [])
  | r :: rs =>
    let pa := match pa0 with
      | none => some (r.parcelAreaM2.getD 0)
      | some a => some a
    let inter := r.interAreaM2.getD 0
    let rest := buildSurfaces pa rs
    if 0 < inter then
      (rest.1,
        { id := r.id, interAreaM2 := inter,
          pctOfParcel :=
            match pa with
            | some a => if a = 0 then none else some (inter / a * 100)
            | none => none } :: rest.2)
    else
      rest

/-- The `cov_list` loop over the rows of one coverage query: keep rows with
strictly positive area when the parcel area is truthy, with
`pct_of_parcel = inter_area / parcel_area * 100`. -/
def buildCovList (pa : Option ℚ) : List CovRow → List CovEntry
  | [] => []
  | r :: rs =>
    let inter := r.interAreaM2.getD 0
    match pa with
    | some a =>
      if 0 < inter ∧ a ≠ 0 then
        { value := r.value, interAreaM2 := inter, pctOfParcel := inter / a * 100 }
          :: buildCovList (some a) rs
      else
        buildCovList (some a) rs
    | none => buildCovList none rs

/-- The whitelisted-attribute sampling loop (`for col in keep_effective`),
with the trace of the issued `VALUES` queries.  A query failure aborts the
loop (the exception handling differs between the two variants and lives in
the caller). -/
def valuesLoop (db : Db) (gj : Geom) (lyr : LayerConfig) (lim : Nat) :
    List String → List Query × Except String (List (String × List String))
  | [] => ([], Except.ok [])
  | c :: cs =>
    match db.valuesQ gj lyr c lim with
    | Except.error e => ([Query.values lyr.schema lyr.table c], Except.error e)
    | Except.ok rows =>
      let rest := valuesLoop db gj lyr lim cs
      (Query.values lyr.schema lyr.table c :: rest.1,
       rest.2.map (fun m => (c, rows.filterMap id) :: m))

/-- The coverage loop of the Root variant (`for cov_col in
lyr.get("coverage_by", [])`): an attribute whose `cov_list` is empty is not
added to `coverage_results`. -/
def covLoopRoot (db : Db) (gj : Geom) (lyr : LayerConfig) (pa : Option ℚ) :
    List String → List Query × Except String (List (String × List CovEntry))
  | [] => ([], Except.ok [])
  | c :: cs =>
    match db.covQ gj lyr c with
    | Except.error e => ([Query.cov lyr.schema lyr.table c], Except.error e)
    | Except.ok rows =>
      let covList := buildCovList pa rows
      let rest := covLoopRoot db gj lyr pa cs
      (Query.cov lyr.schema lyr.table c :: rest.1,
       rest.2.map (fun m => if covList.isEmpty then m else (c, covList) :: m))

/-- The coverage loop of the Pkg variant: every configured coverage
attribute gets an entry in `coverage_results`, even when its list is empty. -/
def covLoopPkg (db : Db) (gj : Geom) (lyr : LayerConfig) (pa : Option ℚ) :
    List String → List Query × Except String (List (String × List CovEntry))
  | [] => ([], Except.ok [])
  | c :: cs =>
    match db.covQ gj lyr c with
    | Except.error e => ([Query.cov lyr.schema lyr.table c], Except.error e)
    | Except.ok rows =>
      let covList := buildCovList pa rows
      let rest := covLoopPkg db gj lyr pa cs
      (Query.cov lyr.schema lyr.table c :: rest.1,
       rest.2.map (fun m => (c, covList) :: m))

/-- One layer of the Root `_intersect_one_parcel` loop body, with its query
trace.  Control flow: existing-columns introspection, COUNT (skip the layer
when 0), VALUES per kept column, a second column introspection for the id
column, AREA, then one coverage query per `coverage_by` attribute.  Any
query failure is returned as `Except.error` (the Root variant has no
per-layer `try/except`). -/
def processLayerRootT (db : Db) (gj : Geom) (lim : Nat) (lyr : LayerConfig) :
    List Query × Except String (Option LayerResult) :=
  let cols := db.existingCols lyr.schema lyr.table
  let keepEff := lyr.keep.filter (fun c => cols.contains c)
  let t0 := [Query.cols lyr.schema lyr.table, Query.count lyr.schema lyr.table]
  match db.countQ gj lyr with
  | Except.error e => (t0, Except.error e)
  | Except.ok n =>
    if n = 0 then (t0, Except.ok none)
    else
      let vres := valuesLoop db gj lyr lim keepEff
      match vres.2 with
      | Except.error e => (t0 ++ vres.1, Except.error e)
      | Except.ok valsMap =>
        let hasId := (db.existingCols lyr.schema lyr.table).contains "id"
        let t1 := t0 ++ vres.1 ++
          [Query.cols lyr.schema lyr.table, Query.area lyr.schema lyr.table]
        match db.areaQ gj lyr (if hasId then some "id" else none) with
        | Except.error e => (t1, Except.error e)
        | Except.ok rows =>
          let paSurf := buildSurfaces none rows
          let cres := covLoopRoot db gj lyr paSurf.1 lyr.coverageBy
          match cres.2 with
          | Except.error e => (t1 ++ cres.1, Except.error e)
          | Except.ok coverage =>
            (t1 ++ cres.1,
             Except.ok (some
               { nom := lyr.table, schema := lyr.schema, table := lyr.table,
                 geomCol := lyr.geomCol, srid := 4326, count := n,
                 values := valsMap, surfaces := paSurf.2,
                 coverage := coverage, parcelAreaM2 := paSurf.1 }))

/-- One layer of the Pkg `_intersect_one_parcel` loop body, with its query
trace.  Differences from Root: the metric `geom_2154` column is used
(`srid` 2154), and the coverage loop keeps empty attributes.  The
`try/except` that catches the error lives in `layersLoopPkg`. -/
def processLayerPkgT (db : Db) (gj : Geom) (lim : Nat) (lyr : LayerConfig) :
    List Query × Except String (Option LayerResult) :=
  let cols := db.existingCols lyr.schema lyr.table
  let keepEff := lyr.keep.filter (fun c => cols.contains c)
  let t0 := [Query.cols lyr.schema lyr.table, Query.count lyr.schema lyr.table]
  match db.countQ gj lyr with
  | Except.error e => (t0, Except.error e)
  | Except.ok n =>
    if n = 0 then (t0, Except.ok none)
    else
      let vres := valuesLoop db gj lyr lim keepEff
      match vres.2 with
      | Except.error e => (t0 ++ vres.1, Except.error e)
      | Except.ok valsMap =>
        let hasId := (db.existingCols lyr.schema lyr.table).contains "id"
        let t1 := t0 ++ vres.1 ++
          [Query.cols lyr.schema lyr.table, Query.area lyr.schema lyr.table]
        match db.areaQ gj lyr (if hasId then some "id" else none) with
        | Except.error e => (t1, Except.error e)
        | Except.ok rows =>
          let paSurf := buildSurfaces none rows
          let cres := covLoopPkg db gj lyr paSurf.1 lyr.coverageBy
          match cres.2 with
          | Except.error e => (t1 ++ cres.1, Except.error e)
          | Except.ok coverage =>
            (t1 ++ cres.1,
             Except.ok (some
               { nom := lyr.table, schema := lyr.schema, table := lyr.table,
                 geomCol := "geom_2154", srid := 2154, count := n,
                 values := valsMap, surfaces := paSurf.2,
                 coverage := coverage, parcelAreaM2 := paSurf.1 }))

/-- The Root layer loop: a failed layer aborts the whole parcel; a zero-hit
layer is skipped; a hit appends its result and bumps `hit_count`. -/
def layersLoopRoot (db : Db) (gj : Geom) (lim : Nat) :
    List LayerConfig → Except String (List LayerResult × Nat)
  | [] => Except.ok ([], 0)
  | lyr :: rest =>
    match (processLayerRootT db gj lim lyr).2 with
    | Except.error e => Except.error e
    | Except.ok none => layersLoopRoot db gj lim rest
    | Except.ok (some res) =>
      (layersLoopRoot db gj lim rest).map (fun p => (res :: p.1, p.2 + 1))

/-- The Pkg layer loop: `except Exception: continue` turns a failed layer
into a skip, so the loop is total. -/
def layersLoopPkg (db : Db) (gj : Geom) (lim : Nat) :
    List LayerConfig → List LayerResult × Nat
  | [] => ([], 0)
  | lyr :: rest =>
    match (processLayerPkgT db gj lim lyr).2 with
    | Except.error _ => layersLoopPkg db gj lim rest
    | Except.ok none => layersLoopPkg db gj lim rest
    | Except.ok (some res) =>
      let p := layersLoopPkg db gj lim rest
      (res :: p.1, p.2 + 1)

/-- The geometry sent to the SQL queries: the carve-enclaves oracle output
when the toggle is on, else the raw feature geometry. -/
def parcelGeomJson (carve : Geom → ℚ → Geom) (carveEnclaves : Bool)
    (enclaveBufferM : ℚ) (feat : ParcelFeature) : Geom :=
  if carveEnclaves then carve feat.geometry enclaveBufferM else feat.geometry

/-- Root `_intersect_one_parcel`: runs every layer against the parcel
geometry and assembles the per-parcel report (label, `layers_with_hits`,
`results`).  Any layer failure propagates. -/
def intersectOneParcelRoot (db : Db) (layers : List LayerConfig)
    (feat : ParcelFeature) (carveEnclaves : Bool) (carve : Geom → ℚ → Geom)
    (enclaveBufferM : ℚ) (valuesLimit : Nat) : Except String ParcelReport :=
  let gj := parcelGeomJson carve carveEnclaves enclaveBufferM feat
  (layersLoopRoot db gj valuesLimit layers).map fun p =>
    { label := feat.sec ++ " " ++ feat.numero,
      layersWithHits := p.2, results := p.1 }

/-- Pkg `_intersect_one_parcel`: same shape, but per-layer failures are
caught, so a report is always produced. -/
def intersectOneParcelPkg (db : Db) (layers : List LayerConfig)
    (feat : ParcelFeature) (carveEnclaves : Bool) (carve : Geom → ℚ → Geom)
    (enclaveBufferM : ℚ) (valuesLimit : Nat) : ParcelReport :=
  let gj := parcelGeomJson carve carveEnclaves enclaveBufferM feat
  let p := layersLoopPkg db gj valuesLimit layers
  { label := feat.sec ++ " " ++ feat.numero,
    layersWithHits := p.2, results := p.1 }

/-! ## Batch runner (`run` in the top-level `intersections_parcelle.py`) -/

/-- Python `str.zfill(4)` on a parcel number. -/
def zfill4 (s : String) : String :=
  if s.length < 4 then String.mk (List.replicate (4 - s.length) '0') ++ s else s

/-- Python `s.split()` (no argument): split on whitespace runs, no empty
pieces. -/
def wsSplitAux : List Char → List Char → List (List Char)
  | [], cur => if cur.isEmpty then [] else [cur.reverse]
  | c :: cs, cur =>
    if c.isWhitespace then
      if cur.isEmpty then wsSplitAux cs [] else cur.reverse :: wsSplitAux cs []
    else
      wsSplitAux cs (c :: cur)

/-- `raw.strip().split()` of `_parse_parcel_refs` (the strip is subsumed by
the whitespace split). -/
def wsSplit (l : List Char) : List (List Char) :=
  wsSplitAux l []

/-- `_parse_parcel_refs`: split on commas, split each piece on whitespace,
skip pieces that do not have exactly two tokens, uppercase the section and
zero-pad the number to four digits. -/
def parseParcelRefs (parcelsStr : String) : List (String × String) :=
  (splitOnComma parcelsStr.data).filterMap fun raw =>
    match wsSplit raw with
    | [a, b] => some (String.mk (a.map Char.toUpper), zfill4 (String.mk b))
    | _ => none

/-- The final JSON document written by `run`. -/
structure BatchOut where
  commune : String
  departement : String
  insee : String
  reports : List ParcelEntry
deriving DecidableEq

/-- The per-reference loop of `run`: locate the parcel via the WFS oracle;
on `NotFound` append the error placeholder and continue; otherwise run the
(Root) executor, whose failure propagates out of the batch. -/
def batchLoopRoot (db : Db) (locate : String → String → String → Option ParcelFeature)
    (insee : String) (layers : List LayerConfig) (carveEnclaves : Bool)
    (carve : Geom → ℚ → Geom) (enclaveBufferM : ℚ) (valuesLimit : Nat) :
    List (String × String) → Except String (List ParcelEntry)
  | [] => Except.ok []
  | (sec, num) :: rest =>
    match locate insee sec num with
    | none =>
      (batchLoopRoot db locate insee layers carveEnclaves carve enclaveBufferM
          valuesLimit rest).map
        (fun entries =>
          ParcelEntry.error (sec ++ " " ++ num)
            ("Parcelle non trouvée (INSEE " ++ insee ++ ", " ++ sec ++ " " ++ num ++ ")")
          :: entries)
    | some feat =>
      match intersectOneParcelRoot db layers feat carveEnclaves carve
          enclaveBufferM valuesLimit with
      | Except.error e => Except.error e
      | Except.ok r =>
        (batchLoopRoot db locate insee layers carveEnclaves carve enclaveBufferM
            valuesLimit rest).map (fun entries => ParcelEntry.report r :: entries)

/-- `run` from the top-level `intersections_parcelle.py`.  `inseeRes` is the
result of `get_insee_from_csv` (`None` on no or ambiguous match); a `None`
aborts with the INSEE error; an empty parsed reference list aborts with its
own error; otherwise the batch loop runs over the parsed references and the
output document is assembled. -/
def run (inseeRes : Option String) (db : Db)
    (locate : String → String → String → Option ParcelFeature)
    (layersAll : List LayerConfig) (schemaWhitelist : List String)
    (commune departement parcelStr : String) (carveEnclaves : Bool)
    (carve : Geom → ℚ → Geom) (enclaveBufferM : ℚ) (valuesLimit : Nat) :
    Except String BatchOut :=
  match inseeRes with
  | none => Except.error "Impossible de déterminer un code INSEE unique."
  | some insee =>
    let layers :=
      if schemaWhitelist.isEmpty then layersAll
      else layersAll.filter (fun l => schemaWhitelist.contains l.schema)
    let refs := parseParcelRefs parcelStr
    if refs.isEmpty then
      Except.error "Aucune référence parcellaire valide fournie."
    else
      (batchLoopRoot db locate insee layers carveEnclaves carve enclaveBufferM
          valuesLimit refs).map
        (fun entries =>
          { commune := commune, departement := departement, insee := insee,
            reports := entries })

/-! ## Concrete fixtures

Small concrete oracles and layers used to instantiate the theorems below
(witnesses and counterexamples). -/

/-- A parcel feature for section AD, number 0598. -/
def wFeat : ParcelFeature :=
  { geometry := "g", sec := "AD", numero := "0598" }

/-- A layer named `public.a` with no kept attributes. -/
def wLayerA : LayerConfig :=
  { schema := "public", table := "a", geomCol := "geom", keep := [], coverageBy := [] }

/-- A layer named `public.b` with no kept attributes. -/
def wLayerB : LayerConfig :=
  { schema := "public", table := "b", geomCol := "geom", keep := [], coverageBy := [] }

/-- A store where no layer intersects anything. -/
def wDb0 : Db :=
  { existingCols := fun _ _ => []
    countQ := fun _ _ => Except.ok 0
    valuesQ := fun _ _ _ _ => Except.ok []
    areaQ := fun _ _ _ => Except.ok []
    covQ := fun _ _ _ => Except.ok [] }

/-- A store whose COUNT query fails (raises) on layer `a` only. -/
def dbBoom : Db :=
  { wDb0 with
    countQ := fun _ lyr => if lyr.table = "a" then Except.error "boom" else Except.ok 0 }

/-- A WFS oracle that resolves every section except "ZZ". -/
def wLocate : String → String → String → Option ParcelFeature :=
  fun _ sec num =>
    if sec = "ZZ" then none else some { geometry := "g", sec := sec, numero := num }

/-- A layer carrying one coverage attribute `zone`. -/
def c2layer : LayerConfig :=
  { schema := "public", table := "ppri", geomCol := "geom", keep := [],
    coverageBy := ["zone"] }

/-- A store where the layer hits: the parcel measures 100 m², one feature
intersects 10 m² of it, but the `zone`-grouped intersected areas sum to
150 m² (overlapping source features sharing the value "A"). -/
def c2db : Db :=
  { existingCols := fun _ _ => []
    countQ := fun _ _ => Except.ok 1
    valuesQ := fun _ _ _ _ => Except.ok []
    areaQ := fun _ _ _ =>
      Except.ok [{ id := "1", interAreaM2 := some 10, parcelAreaM2 := some 100 }]
    covQ := fun _ _ _ => Except.ok [{ value := "A", interAreaM2 := some 150 }] }

/-- The coverage distribution the Root executor derives from `c2db`. -/
def c2cov : String × List CovEntry :=
  ("zone", [{ value := "A", interAreaM2 := 150, pctOfParcel := 150 }])

/-- The intersection result the Root executor derives from `c2db` on `c2layer`. -/
def c2res : LayerResult :=
  { nom := "ppri", schema := "public", table := "ppri", geomCol := "geom",
    srid := 4326, count := 1, values := [],
    surfaces := [{ id := "1", interAreaM2 := 10, pctOfParcel := some 10 }],
    coverage := [c2cov],
    parcelAreaM2 := some 100 }

/-- The report the Root executor produces from `c2db` on `c2layer`. -/
def c2report : ParcelReport :=
  { label := "AD 0598", layersWithHits := 1, results := [c2res] }

/-- The batch output used to witness batch isolation: three references with
the second one unresolvable. -/
def wBatchOut : BatchOut :=
  { commune := "Latresne", departement := "33", insee := "33234",
    reports :=
      [ParcelEntry.report { label := "AD 0598", layersWithHits := 0, results := [] },
       ParcelEntry.error "ZZ 0001" "Parcelle non trouvée (INSEE 33234, ZZ 0001)",
       ParcelEntry.report { label := "AC 0042", layersWithHits := 0, results := [] }] }

/-! ## Proofs -/

/-! ### Helper lemmas about `dictAdd` / `aggPairs` -/

lemma dictAdd_keys_mem (acc : List (String × ℚ)) (v : String) (p : ℚ)
    (h : v ∈ acc.map Prod.fst) :
    (dictAdd acc v p).map Prod.fst = acc.map Prod.fst := by
  have hany : acc.any (fun kv => kv.1 = v) = true := by
    simp only [List.any_eq_true, decide_eq_true_eq]
    rcases List.mem_map.1 h with ⟨kv, hkv, hfst⟩
    exact ⟨kv, hkv, hfst⟩
  simp only [dictAdd, hany, if_true]
  rw [List.map_map]
  refine List.map_congr_left fun kv _ => ?_
  by_cases hk : kv.1 = v <;> simp [hk]

lemma dictAdd_keys_not_mem (acc : List (String × ℚ)) (v : String) (p : ℚ)
    (h : v ∉ acc.map Prod.fst) :
    dictAdd acc v p = acc ++ [(v, p)] := by
  have hany : acc.any (fun kv => kv.1 = v) = false := by
    simp only [List.any_eq_false, decide_eq_true_eq]
    intro kv hkv hfst
    exact h (List.mem_map.2 ⟨kv, hkv, hfst⟩)
  simp [dictAdd, hany]

lemma dictAdd_keys_nodup (acc : List (String × ℚ)) (v : String) (p : ℚ)
    (h : (acc.map Prod.fst).Nodup) :
    ((dictAdd acc v p).map Prod.fst).Nodup := by
  by_cases hv : v ∈ acc.map Prod.fst
  · rwa [dictAdd_keys_mem acc v p hv]
  · rw [dictAdd_keys_not_mem acc v p hv]
    simp only [List.map_append, List.map_cons, List.map_nil]
    exact List.Nodup.append h (List.nodup_singleton v)
      (by simpa using fun hx => hv hx)

lemma aggPairs_go_keys_nodup (pairs : List (String × ℚ)) :
    ∀ acc : List (String × ℚ), (acc.map Prod.fst).Nodup →
      ((pairs.foldl (fun acc vp => dictAdd acc vp.1 vp.2) acc).map Prod.fst).Nodup := by
  induction pairs with
  | nil => intro acc h; simpa using h
  | cons vp rest ih =>
      intro acc h
      exact ih _ (dictAdd_keys_nodup acc vp.1 vp.2 h)

/-- The keys of the aggregated dict are pairwise distinct. -/
lemma aggPairs_keys_nodup (pairs : List (String × ℚ)) :
    ((aggPairs pairs).map Prod.fst).Nodup :=
  aggPairs_go_keys_nodup pairs [] (by simp)

lemma dictAdd_nonneg (acc : List (String × ℚ)) (v : String) (p : ℚ)
    (hacc : ∀ kv ∈ acc, 0 ≤ kv.2) (hp : 0 ≤ p) :
    ∀ kv ∈ dictAdd acc v p, 0 ≤ kv.2 := by
  intro kv hkv
  by_cases hany : acc.any (fun kv => kv.1 = v)
  · simp only [dictAdd, hany, if_true] at hkv
    rcases List.mem_map.1 hkv with ⟨kv', hkv', hval⟩
    by_cases hk : kv'.1 = v
    · simp only [hk, if_true] at hval
      have := hacc kv' hkv'
      rw [← hval]
      exact add_nonneg this hp
    · simp only [hk, if_false] at hval
      rw [← hval]; exact hacc kv' hkv'
  · simp only [dictAdd, hany, if_false] at hkv
    rcases List.mem_append.1 hkv with h | h
    · exact hacc kv h
    · rcases List.mem_singleton.1 h with rfl
      exact hp

lemma aggPairs_go_nonneg (pairs : List (String × ℚ)) (hp : ∀ vp ∈ pairs, 0 ≤ vp.2) :
    ∀ acc : List (String × ℚ), (∀ kv ∈ acc, 0 ≤ kv.2) →
      ∀ kv ∈ pairs.foldl (fun acc vp => dictAdd acc vp.1 vp.2) acc, 0 ≤ kv.2 := by
  induction pairs with
  | nil => intro acc h; simpa using h
  | cons vp rest ih =>
      intro acc h
      refine ih (fun x hx => hp x (List.mem_cons_of_mem _ hx)) _ ?_
      exact dictAdd_nonneg acc vp.1 vp.2 h (hp vp (List.mem_cons_self _ _))

/-- Aggregated percents of nonnegative inputs are nonnegative. -/
lemma aggPairs_nonneg (pairs : List (String × ℚ)) (hp : ∀ vp ∈ pairs, 0 ≤ vp.2) :
    ∀ kv ∈ aggPairs pairs, 0 ≤ kv.2 :=
  aggPairs_go_nonneg pairs hp [] (by simp)

/-- Folding the dict-update over a list whose keys are already distinct from
each other and from the accumulator just appends the list. -/
lemma aggPairs_go_eq_append (pairs : List (String × ℚ)) :
    ∀ acc : List (String × ℚ), ((acc ++ pairs).map Prod.fst).Nodup →
      pairs.foldl (fun acc vp => dictAdd acc vp.1 vp.2) acc = acc ++ pairs := by
  induction pairs with
  | nil => intro acc _; simp
  | cons vp rest ih =>
      intro acc h
      have hnotmem : vp.1 ∉ acc.map Prod.fst := by
        intro hmem
        have : vp.1 ∈ ((acc ++ vp :: rest).map Prod.fst) := by
          simp only [List.map_append]
          exact List.mem_append_left _ hmem
        have hdisj := (List.nodup_append.1 (by simpa [List.map_append] using h)).2.2
        exact hdisj hmem (by simp)
      have hstep : dictAdd acc vp.1 vp.2 = acc ++ [(vp.1, vp.2)] :=
        dictAdd_keys_not_mem acc vp.1 vp.2 hnotmem
      simp only [List.foldl_cons, hstep]
      have h' : (((acc ++ [(vp.1, vp.2)]) ++ rest).map Prod.fst).Nodup := by
        simpa using h
      have := ih (acc ++ [(vp.1, vp.2)]) h'
      simpa using this

/-- On a list with distinct keys, aggregation is the identity. -/
lemma aggPairs_eq_self (pairs : List (String × ℚ))
    (h : (pairs.map Prod.fst).Nodup) : aggPairs pairs = pairs := by
  have := aggPairs_go_eq_append pairs [] (by simpa using h)
  simpa [aggPairs] using this

/-! ### The normalization invariant -/

lemma normalize_pairs_eq (pairs : List (String × ℚ)) :
    normalize_pairs pairs =
      (if 100 + 1 / 10000 <
          ((List.insertionSort covGe
              ((aggPairs pairs).map (fun vp => (vp.1, min vp.2 100)))).map
            (fun vp => vp.2)).sum then
        (List.insertionSort covGe
            ((aggPairs pairs).map (fun vp => (vp.1, min vp.2 100)))).map
          (fun vp =>
            (vp.1, vp.2 * 100 /
              ((List.insertionSort covGe
                  ((aggPairs pairs).map (fun vp => (vp.1, min vp.2 100)))).map
                (fun vp => vp.2)).sum))
      else
        List.insertionSort covGe
          ((aggPairs pairs).map (fun vp => (vp.1, min vp.2 100)))) := rfl

/-- Unique values, percents in `[0, 100]`, and total at most `100 + 1/10000`
after normalization of nonnegative pairs. -/
lemma normalize_pairs_invariant (pairs : List (String × ℚ))
    (hp : ∀ vp ∈ pairs, 0 ≤ vp.2) :
    ((normalize_pairs pairs).map Prod.fst).Nodup ∧
    (∀ vp ∈ normalize_pairs pairs, 0 ≤ vp.2 ∧ vp.2 ≤ 100) ∧
    ((normalize_pairs pairs).map (fun vp => vp.2)).sum ≤ 100 + 1 / 10000 := by
  have hperm : List.Perm
      (List.insertionSort covGe
        ((aggPairs pairs).map (fun vp => (vp.1, min vp.2 100))))
      ((aggPairs pairs).map (fun vp => (vp.1, min vp.2 100))) :=
    List.perm_insertionSort covGe _
  set sorted := List.insertionSort covGe
      ((aggPairs pairs).map (fun vp => (vp.1, min vp.2 100))) with hsorted
  set total := (sorted.map (fun vp => vp.2)).sum with htotal
  -- keys of `sorted` are the keys of the aggregated dict, hence nodup
  have hkeys : (sorted.map Prod.fst).Nodup := by
    refine ((hperm.map Prod.fst).nodup_iff).2 ?_
    rw [List.map_map]
    simpa [Function.comp] using aggPairs_keys_nodup pairs
  -- element bounds in `sorted`
  have hbounds : ∀ vp ∈ sorted, 0 ≤ vp.2 ∧ vp.2 ≤ 100 := by
    intro vp hvp
    have hvp' := hperm.mem_iff.1 hvp
    rcases List.mem_map.1 hvp' with ⟨kv, hkv, rfl⟩
    exact ⟨le_min (aggPairs_nonneg pairs hp kv hkv) (by norm_num), min_le_right _ _⟩
  have hmem_le_total : ∀ vp ∈ sorted, vp.2 ≤ total := by
    intro vp hvp
    refine List.single_le_sum ?_ _ (List.mem_map_of_mem (fun vp => vp.2) hvp)
    intro x hx
    rcases List.mem_map.1 hx with ⟨kv, hkv, rfl⟩
    exact (hbounds kv hkv).1
  rw [normalize_pairs_eq]
  by_cases hcase : 100 + 1 / 10000 < total
  · have htpos : 0 < total := lt_trans (by norm_num) hcase
    rw [if_pos (by exact hcase)]
    refine ⟨?_, ?_, ?_⟩
    · rw [List.map_map]
      simpa [Function.comp] using hkeys
    · intro vp hvp
      rcases List.mem_map.1 hvp with ⟨kv, hkv, rfl⟩
      constructor
      · exact div_nonneg (mul_nonneg (hbounds kv hkv).1 (by norm_num)) htpos.le
      · rw [div_le_iff₀ htpos]
        nlinarith [hmem_le_total kv hkv]
    · have hsum : ((sorted.map fun vp =>
          ((vp.1, vp.2 * 100 / total) : String × ℚ)).map (fun vp => vp.2)).sum
          = 100 := by
        rw [List.map_map]
        have hcomp : ((fun vp => vp.2) ∘ fun vp : String × ℚ => (vp.1, vp.2 * 100 / total))
            = fun vp : String × ℚ => vp.2 * (100 / total) := by
          funext vp
          simp [Function.comp, mul_div_assoc]
        rw [hcomp, List.sum_map_mul_right, ← htotal, mul_comm,
          div_mul_cancel₀ _ htpos.ne']
      rw [hsum]
      norm_num
  · rw [if_neg hcase]
    exact ⟨hkeys, hbounds, not_lt.1 hcase⟩

/-- The output of `normalize_pairs` is sorted descending by percent. -/
lemma normalize_pairs_sorted (pairs : List (String × ℚ)) :
    (normalize_pairs pairs).Sorted covGe := by
  have hsorted : (List.insertionSort covGe
      ((aggPairs pairs).map (fun vp => (vp.1, min vp.2 100)))).Sorted covGe :=
    List.sorted_insertionSort covGe _
  rw [normalize_pairs_eq]
  set sorted := List.insertionSort covGe
      ((aggPairs pairs).map (fun vp => (vp.1, min vp.2 100))) with hs
  set total := (sorted.map (fun vp => vp.2)).sum with ht
  by_cases hcase : 100 + 1 / 10000 < total
  · have htpos : 0 < total := lt_trans (by norm_num) hcase
    rw [if_pos hcase]
    rw [List.Sorted, List.pairwise_map]
    refine hsorted.imp ?_
    intro a b hab
    show (b.2 * 100 / total) ≤ (a.2 * 100 / total)
    have : b.2 ≤ a.2 := hab
    gcongr
  · rw [if_neg hcase]
    exact hsorted

/-- Normalizing an already-normalized list changes nothing (exact over `ℚ`). -/
lemma normalize_pairs_idem_aux (pairs : List (String × ℚ))
    (hp : ∀ vp ∈ pairs, 0 ≤ vp.2) :
    normalize_pairs (normalize_pairs pairs) = normalize_pairs pairs := by
  obtain ⟨hnodup, hbounds, hsum⟩ := normalize_pairs_invariant pairs hp
  have hsorted := normalize_pairs_sorted pairs
  set out := normalize_pairs pairs with hout
  have h1 : aggPairs out = out := aggPairs_eq_self out hnodup
  have h2 : out.map (fun vp => (vp.1, min vp.2 100)) = out := by
    have heq : ∀ vp ∈ out, ((vp.1, min vp.2 100) : String × ℚ) = id vp := by
      intro vp hvp
      have h100 := (hbounds vp hvp).2
      simp [min_eq_left h100]
    rw [List.map_congr_left heq, List.map_id]
  have h3 : List.insertionSort covGe out = out := hsorted.insertionSort_eq
  rw [normalize_pairs_eq out, h1, h2, h3, if_neg (not_lt.2 hsum)]

/-! ### Claims C1, C4, C5 -/

/-- C1: for every input list of (value, percent) pairs with each percent ≥ 0,
the output of `normalize_pairs` contains no duplicate values, every output
percent lies in [0, 100], and the sum of output percents is at most
100 + 1e-4. -/
theorem C1_normalize_pairs_invariant (pairs : List (String × ℚ))
    (hp : ∀ vp ∈ pairs, 0 ≤ vp.2) :
    ((normalize_pairs pairs).map Prod.fst).Nodup ∧
    (∀ vp ∈ normalize_pairs pairs, 0 ≤ vp.2 ∧ vp.2 ≤ 100) ∧
    ((normalize_pairs pairs).map (fun vp => vp.2)).sum ≤ 100 + 1 / 10000 :=
  normalize_pairs_invariant pairs hp

theorem C1_normalize_pairs_invariant_witness :
    ((normalize_pairs [("Bleu", 70), ("Bleu", 45), ("Rouge", 10)]).map
      Prod.fst).Nodup ∧
    (∀ vp ∈ normalize_pairs [("Bleu", 70), ("Bleu", 45), ("Rouge", 10)],
      0 ≤ vp.2 ∧ vp.2 ≤ 100) ∧
    ((normalize_pairs [("Bleu", 70), ("Bleu", 45), ("Rouge", 10)]).map
      (fun vp => vp.2)).sum ≤ 100 + 1 / 10000 :=
  C1_normalize_pairs_invariant [("Bleu", 70), ("Bleu", 45), ("Rouge", 10)]
    (by decide)

/-- C4: on input `[("Bleu", 70), ("Bleu", 45), ("Rouge", 10)]` the normalizer
groups "Bleu" to 115, caps it to 100, and rescales both groups by 100/110,
giving Bleu = 100·(100/110) = 1000/11 ≈ 90.91 and
Rouge = 10·(100/110) = 100/11 ≈ 9.09, with the output summing to exactly 100. -/
theorem C4_dedup_before_cap_example :
    normalize_pairs [("Bleu", 70), ("Bleu", 45), ("Rouge", 10)] =
      [("Bleu", 1000 / 11), ("Rouge", 100 / 11)] ∧
    ((normalize_pairs [("Bleu", 70), ("Bleu", 45), ("Rouge", 10)]).map
      (fun vp => vp.2)).sum = 100 := by
  norm_num [normalize_pairs_eq, aggPairs, dictAdd, List.insertionSort,
    List.orderedInsert, covGe]

/-- C5: `normalize_pairs` is idempotent on lists of pairs with nonnegative
percents; over `ℚ` the re-normalized distribution is even exactly equal. -/
theorem C5_normalize_pairs_idempotent (pairs : List (String × ℚ))
    (hp : ∀ vp ∈ pairs, 0 ≤ vp.2) :
    normalize_pairs (normalize_pairs pairs) = normalize_pairs pairs :=
  normalize_pairs_idem_aux pairs hp

theorem C5_normalize_pairs_idempotent_witness :
    normalize_pairs (normalize_pairs [("Bleu", 70), ("Bleu", 45), ("Rouge", 10)]) =
      normalize_pairs [("Bleu", 70), ("Bleu", 45), ("Rouge", 10)] :=
  C5_normalize_pairs_idempotent [("Bleu", 70), ("Bleu", 45), ("Rouge", 10)]
    (by decide)


/-! ### Generic inversion for `Except.map` -/

lemma except_map_ok {α β : Type} (f : α → β) (x : Except String α) (y : β) :
    x.map f = Except.ok y ↔ ∃ a, x = Except.ok a ∧ f a = y := by
  cases x <;> simp [Except.map]

/-! ### Zero-hit and failed layers are skipped -/

lemma processLayerRootT_zero (db : Db) (gj : Geom) (lim : Nat) (lyr : LayerConfig)
    (h : db.countQ gj lyr = Except.ok 0) :
    processLayerRootT db gj lim lyr =
      ([Query.cols lyr.schema lyr.table, Query.count lyr.schema lyr.table],
       Except.ok none) := by
  simp [processLayerRootT, h]

lemma processLayerPkgT_zero (db : Db) (gj : Geom) (lim : Nat) (lyr : LayerConfig)
    (h : db.countQ gj lyr = Except.ok 0) :
    processLayerPkgT db gj lim lyr =
      ([Query.cols lyr.schema lyr.table, Query.count lyr.schema lyr.table],
       Except.ok none) := by
  simp [processLayerPkgT, h]

lemma layersLoopRoot_skip (db : Db) (gj : Geom) (lim : Nat) (lyr : LayerConfig)
    (hskip : (processLayerRootT db gj lim lyr).2 = Except.ok none) :
    ∀ pre post, layersLoopRoot db gj lim (pre ++ lyr :: post) =
      layersLoopRoot db gj lim (pre ++ post) := by
  intro pre post
  induction pre with
  | nil => simp [layersLoopRoot, hskip]
  | cons l ls ih =>
    show layersLoopRoot db gj lim (l :: (ls ++ lyr :: post)) =
      layersLoopRoot db gj lim (l :: (ls ++ post))
    simp only [layersLoopRoot]
    rw [ih]

lemma layersLoopPkg_skip (db : Db) (gj : Geom) (lim : Nat) (lyr : LayerConfig)
    (hskip : ∀ r, (processLayerPkgT db gj lim lyr).2 ≠ Except.ok (some r)) :
    ∀ pre post, layersLoopPkg db gj lim (pre ++ lyr :: post) =
      layersLoopPkg db gj lim (pre ++ post) := by
  intro pre post
  induction pre with
  | nil =>
    show layersLoopPkg db gj lim (lyr :: post) = layersLoopPkg db gj lim ([] ++ post)
    cases hp : (processLayerPkgT db gj lim lyr).2 with
    | error e => simp [layersLoopPkg, hp]
    | ok o =>
      cases o with
      | none => simp [layersLoopPkg, hp]
      | some r => exact absurd hp (hskip r)
  | cons l ls ih =>
    show layersLoopPkg db gj lim (l :: (ls ++ lyr :: post)) =
      layersLoopPkg db gj lim (l :: (ls ++ post))
    simp only [layersLoopPkg]
    rw [ih]

/-! ### `hit_count` counts exactly the appended results -/

lemma layersLoopRoot_hits (db : Db) (gj : Geom) (lim : Nat) :
    ∀ layers p, layersLoopRoot db gj lim layers = Except.ok p →
      p.2 = p.1.length := by
  intro layers
  induction layers with
  | nil =>
    intro p h
    simp only [layersLoopRoot, Except.ok.injEq] at h
    rw [← h]
    rfl
  | cons lyr rest ih =>
    intro p h
    simp only [layersLoopRoot] at h
    cases hp : (processLayerRootT db gj lim lyr).2 with
    | error e => rw [hp] at h; exact absurd h (by simp)
    | ok o =>
      rw [hp] at h
      cases o with
      | none => exact ih p h
      | some res =>
        rcases (except_map_ok _ _ _).1 h with ⟨q, hq, hqp⟩
        rw [← hqp]
        simpa using ih q hq

lemma layersLoopPkg_hits (db : Db) (gj : Geom) (lim : Nat) :
    ∀ layers, (layersLoopPkg db gj lim layers).2 =
      (layersLoopPkg db gj lim layers).1.length := by
  intro layers
  induction layers with
  | nil => rfl
  | cons lyr rest ih =>
    simp only [layersLoopPkg]
    cases hp : (processLayerPkgT db gj lim lyr).2 with
    | error e => simpa using ih
    | ok o =>
      cases o with
      | none => simpa using ih
      | some res => simpa using ih

/-! ### Claims C3, C6, C10 -/

/-- C3 counterexample: in the top-level `intersections_parcelle.py` variant
of `_intersect_one_parcel` there is no per-layer `try/except`.  With a store
whose COUNT query raises on layer `public.a`, the whole parcel aborts with
that error: layer `public.b` is never processed and no report is produced,
so the exception is neither caught nor treated as "no hit for this layer". -/
theorem C3_counterexample_root_propagates :
    intersectOneParcelRoot dbBoom [wLayerA, wLayerB] wFeat false (fun g _ => g)
      120 100 = Except.error "boom" := rfl

/-- C3 (amended): in `INTERSECTIONS/intersections_parcelle.py` (the variant
used by the orchestrator), a layer whose sub-queries raise is caught and
skipped: the parcel report is exactly the one computed without that layer,
so the failure does not propagate to other layers or abort the parcel.  In
the top-level variant the exception propagates (see the counterexample). -/
theorem C3_pkg_layer_failure_isolated (db : Db) (lyr : LayerConfig)
    (pre post : List LayerConfig) (feat : ParcelFeature) (ce : Bool)
    (carve : Geom → ℚ → Geom) (buf : ℚ) (lim : Nat)
    (he : ∃ msg, (processLayerPkgT db (parcelGeomJson carve ce buf feat) lim lyr).2 =
      Except.error msg) :
    intersectOneParcelPkg db (pre ++ lyr :: post) feat ce carve buf lim =
      intersectOneParcelPkg db (pre ++ post) feat ce carve buf lim := by
  rcases he with ⟨msg, hmsg⟩
  simp only [intersectOneParcelPkg]
  rw [layersLoopPkg_skip db _ lim lyr (by rw [hmsg]; intro r h; cases h) pre post]

theorem C3_pkg_layer_failure_isolated_witness :
    intersectOneParcelPkg dbBoom ([wLayerB] ++ wLayerA :: [wLayerB]) wFeat false
      (fun g _ => g) 120 100 =
    intersectOneParcelPkg dbBoom ([wLayerB] ++ [wLayerB]) wFeat false
      (fun g _ => g) 120 100 :=
  C3_pkg_layer_failure_isolated dbBoom wLayerA [wLayerB] [wLayerB] wFeat false
    (fun g _ => g) 120 100 ⟨"boom", rfl⟩

/-- C6: a layer whose existence-check COUNT is 0 issues no further
sub-queries (its trace is exactly the column introspection and the COUNT)
and contributes no entry to the report: the parcel report equals the one
computed without that layer, in both executor variants. -/
theorem C6_zero_hit_exclusion (db : Db) (lyr : LayerConfig)
    (pre post : List LayerConfig) (feat : ParcelFeature) (ce : Bool)
    (carve : Geom → ℚ → Geom) (buf : ℚ) (lim : Nat)
    (hz : db.countQ (parcelGeomJson carve ce buf feat) lyr = Except.ok 0) :
    processLayerRootT db (parcelGeomJson carve ce buf feat) lim lyr =
      ([Query.cols lyr.schema lyr.table, Query.count lyr.schema lyr.table],
       Except.ok none) ∧
    processLayerPkgT db (parcelGeomJson carve ce buf feat) lim lyr =
      ([Query.cols lyr.schema lyr.table, Query.count lyr.schema lyr.table],
       Except.ok none) ∧
    intersectOneParcelRoot db (pre ++ lyr :: post) feat ce carve buf lim =
      intersectOneParcelRoot db (pre ++ post) feat ce carve buf lim ∧
    intersectOneParcelPkg db (pre ++ lyr :: post) feat ce carve buf lim =
      intersectOneParcelPkg db (pre ++ post) feat ce carve buf lim := by
  have hr := processLayerRootT_zero db _ lim lyr hz
  have hp := processLayerPkgT_zero db _ lim lyr hz
  refine ⟨hr, hp, ?_, ?_⟩
  · simp only [intersectOneParcelRoot]
    rw [layersLoopRoot_skip db _ lim lyr (by rw [hr]) pre post]
  · simp only [intersectOneParcelPkg]
    rw [layersLoopPkg_skip db _ lim lyr (by rw [hp]; intro r h; cases h) pre post]

theorem C6_zero_hit_exclusion_witness :
    processLayerRootT wDb0 (parcelGeomJson (fun g _ => g) false 120 wFeat) 100 wLayerA =
      ([Query.cols wLayerA.schema wLayerA.table, Query.count wLayerA.schema wLayerA.table],
       Except.ok none) ∧
    processLayerPkgT wDb0 (parcelGeomJson (fun g _ => g) false 120 wFeat) 100 wLayerA =
      ([Query.cols wLayerA.schema wLayerA.table, Query.count wLayerA.schema wLayerA.table],
       Except.ok none) ∧
    intersectOneParcelRoot wDb0 ([wLayerB] ++ wLayerA :: []) wFeat false
      (fun g _ => g) 120 100 =
      intersectOneParcelRoot wDb0 ([wLayerB] ++ []) wFeat false (fun g _ => g) 120 100 ∧
    intersectOneParcelPkg wDb0 ([wLayerB] ++ wLayerA :: []) wFeat false
      (fun g _ => g) 120 100 =
      intersectOneParcelPkg wDb0 ([wLayerB] ++ []) wFeat false (fun g _ => g) 120 100 :=
  C6_zero_hit_exclusion wDb0 wLayerA [wLayerB] [] wFeat false (fun g _ => g) 120 100 rfl

/-- C10: in every parcel report produced by the executor, the
`layers_with_hits` field equals the number of entries of the `results`
list, in both executor variants. -/
theorem C10_layers_with_hits_eq_results_length (db : Db)
    (layers : List LayerConfig) (feat : ParcelFeature) (ce : Bool)
    (carve : Geom → ℚ → Geom) (buf : ℚ) (lim : Nat) (r : ParcelReport)
    (h : intersectOneParcelRoot db layers feat ce carve buf lim = Except.ok r) :
    r.layersWithHits = r.results.length ∧
    (intersectOneParcelPkg db layers feat ce carve buf lim).layersWithHits =
      (intersectOneParcelPkg db layers feat ce carve buf lim).results.length := by
  constructor
  · simp only [intersectOneParcelRoot] at h
    rcases (except_map_ok _ _ _).1 h with ⟨p, hp, hr⟩
    rw [← hr]
    simpa using layersLoopRoot_hits db _ lim layers p hp
  · simp only [intersectOneParcelPkg]
    simpa using layersLoopPkg_hits db _ lim layers

theorem C10_layers_with_hits_eq_results_length_witness :
    ({ label := "AD 0598", layersWithHits := 0, results := [] } : ParcelReport).layersWithHits =
      ({ label := "AD 0598", layersWithHits := 0, results := [] } : ParcelReport).results.length ∧
    (intersectOneParcelPkg wDb0 [wLayerA] wFeat false (fun g _ => g) 120 100).layersWithHits =
      (intersectOneParcelPkg wDb0 [wLayerA] wFeat false (fun g _ => g) 120 100).results.length :=
  C10_layers_with_hits_eq_results_length wDb0 [wLayerA] wFeat false (fun g _ => g)
    120 100 { label := "AD 0598", layersWithHits := 0, results := [] } rfl

/-! ### Batch runner: one entry per reference, in order -/

lemma batchLoopRoot_spec (db : Db)
    (locate : String → String → String → Option ParcelFeature) (insee : String)
    (layers : List LayerConfig) (ce : Bool) (carve : Geom → ℚ → Geom) (buf : ℚ)
    (lim : Nat) :
    ∀ refs entries,
      batchLoopRoot db locate insee layers ce carve buf lim refs = Except.ok entries →
      entries.length = refs.length ∧
      ∀ (i : Nat) (s n : String), refs[i]? = some (s, n) →
        (locate insee s n = none →
          entries[i]? = some (ParcelEntry.error (s ++ " " ++ n)
            ("Parcelle non trouvée (INSEE " ++ insee ++ ", " ++ s ++ " " ++ n ++ ")"))) ∧
        (∀ feat, locate insee s n = some feat →
          ∃ r, intersectOneParcelRoot db layers feat ce carve buf lim = Except.ok r ∧
            entries[i]? = some (ParcelEntry.report r)) := by
  intro refs
  induction refs with
  | nil =>
    intro entries h
    simp only [batchLoopRoot, Except.ok.injEq] at h
    refine ⟨by simp [← h], ?_⟩
    intro i s n hi
    simp at hi
  | cons ref rest ih =>
    intro entries h
    obtain ⟨sec, num⟩ := ref
    simp only [batchLoopRoot] at h
    cases hloc : locate insee sec num with
    | none =>
      simp only [hloc] at h
      rcases (except_map_ok _ _ _).1 h with ⟨tailE, htail, hcons⟩
      rcases ih tailE htail with ⟨hlen, hspec⟩
      subst hcons
      refine ⟨by simp [hlen], ?_⟩
      intro i s n hi
      cases i with
      | zero =>
        simp only [List.getElem?_cons_zero, Option.some.injEq, Prod.mk.injEq] at hi
        obtain ⟨rfl, rfl⟩ := hi
        constructor
        · intro _
          simp
        · intro feat hfeat
          rw [hloc] at hfeat
          cases hfeat
      | succ j =>
        simpa using hspec j s n (by simpa using hi)
    | some feat =>
      simp only [hloc] at h
      cases hint : intersectOneParcelRoot db layers feat ce carve buf lim with
      | error e =>
        simp only [hint] at h
        exact Except.noConfusion h
      | ok r =>
        simp only [hint] at h
        rcases (except_map_ok _ _ _).1 h with ⟨tailE, htail, hcons⟩
        rcases ih tailE htail with ⟨hlen, hspec⟩
        subst hcons
        refine ⟨by simp [hlen], ?_⟩
        intro i s n hi
        cases i with
        | zero =>
          simp only [List.getElem?_cons_zero, Option.some.injEq, Prod.mk.injEq] at hi
          obtain ⟨rfl, rfl⟩ := hi
          constructor
          · intro habs
            rw [hloc] at habs
            cases habs
          · intro feat' hfeat'
            rw [hloc, Option.some.injEq] at hfeat'
            subst hfeat'
            exact ⟨r, hint, by simp⟩
        | succ j =>
          simpa using hspec j s n (by simpa using hi)

/-! ### Claims C7, C8 -/

/-- C7: when a batch run succeeds, its `reports` list has exactly one entry
per parsed parcel reference, in input order; a reference whose geometry is
not found contributes the error placeholder (label plus error message) and
processing continues with the following references. -/
theorem C7_one_entry_per_reference (insee : String) (db : Db)
    (locate : String → String → String → Option ParcelFeature)
    (layersAll : List LayerConfig) (wl : List String)
    (commune dept pstr : String) (ce : Bool) (carve : Geom → ℚ → Geom)
    (buf : ℚ) (lim : Nat) (out : BatchOut)
    (h : run (some insee) db locate layersAll wl commune dept pstr ce carve buf
      lim = Except.ok out) :
    out.reports.length = (parseParcelRefs pstr).length ∧
    ∀ (i : Nat) (s n : String), (parseParcelRefs pstr)[i]? = some (s, n) →
      (locate insee s n = none →
        out.reports[i]? = some (ParcelEntry.error (s ++ " " ++ n)
          ("Parcelle non trouvée (INSEE " ++ insee ++ ", " ++ s ++ " " ++ n ++ ")"))) ∧
      (∀ feat, locate insee s n = some feat →
        ∃ r, intersectOneParcelRoot db
            (if wl.isEmpty then layersAll
             else layersAll.filter (fun l => wl.contains l.schema))
            feat ce carve buf lim = Except.ok r ∧
          out.reports[i]? = some (ParcelEntry.report r)) := by
  simp only [run] at h
  by_cases hre : (parseParcelRefs pstr).isEmpty
  · rw [if_pos hre] at h
    cases h
  · rw [if_neg hre] at h
    rcases (except_map_ok _ _ _).1 h with ⟨entries, hb, hout⟩
    subst hout
    exact batchLoopRoot_spec db locate insee _ ce carve buf lim
      (parseParcelRefs pstr) entries hb

theorem C7_one_entry_per_reference_witness :
    wBatchOut.reports.length = 3 ∧
    wBatchOut.reports[1]? =
      some (ParcelEntry.error "ZZ 0001" "Parcelle non trouvée (INSEE 33234, ZZ 0001)") := by
  have h := C7_one_entry_per_reference "33234" wDb0 wLocate [] [] "Latresne" "33"
    "AD 0598, ZZ 0001, AC 0042" false (fun g _ => g) 120 100 wBatchOut rfl
  refine ⟨by rw [h.1]; rfl, ?_⟩
  have h2 := (h.2 1 "ZZ" "0001" rfl).1 rfl
  exact h2

/-- C8 counterexample: jurisdiction-resolution failure is not the only
top-level abort of `run`.  With a resolved INSEE code but an empty parcel
string, no valid parcel reference is parsed and `run` raises its own
top-level error before any per-parcel work, refuting the "if and only if /
no other failure" part of the claim. -/
theorem C8_counterexample_other_toplevel_error :
    run (some "33234") wDb0 wLocate [] [] "Latresne" "33" "" false
      (fun g _ => g) 120 100 =
      Except.error "Aucune référence parcellaire valide fournie." := rfl

/-- C8 (amended): if the INSEE code cannot be resolved, `run` aborts with
the INSEE error before any per-parcel work (the result does not depend on
the store, the WFS oracle, or the catalog); but this is not the only
top-level abort: a parcel string from which no valid reference is parsed
also aborts the run, and (in this Root variant) a query exception inside a
parcel propagates as well. -/
theorem C8_insee_failure_aborts_before_parcel_work :
    (∀ (db : Db) (locate : String → String → String → Option ParcelFeature)
        (layersAll : List LayerConfig) (wl : List String)
        (commune dept pstr : String) (ce : Bool) (carve : Geom → ℚ → Geom)
        (buf : ℚ) (lim : Nat),
      run none db locate layersAll wl commune dept pstr ce carve buf lim =
        Except.error "Impossible de déterminer un code INSEE unique.") ∧
    (∀ (insee : String) (db : Db)
        (locate : String → String → String → Option ParcelFeature)
        (layersAll : List LayerConfig) (wl : List String)
        (commune dept pstr : String) (ce : Bool) (carve : Geom → ℚ → Geom)
        (buf : ℚ) (lim : Nat),
      parseParcelRefs pstr = [] →
      run (some insee) db locate layersAll wl commune dept pstr ce carve buf lim =
        Except.error "Aucune référence parcellaire valide fournie.") := by
  constructor
  · intro db locate layersAll wl commune dept pstr ce carve buf lim
    rfl
  · intro insee db locate layersAll wl commune dept pstr ce carve buf lim hp
    simp [run, hp]

theorem C8_insee_failure_aborts_before_parcel_work_witness :
    run none wDb0 wLocate [wLayerA] [] "Latresne" "33" "AD 0598" false
      (fun g _ => g) 120 100 =
      Except.error "Impossible de déterminer un code INSEE unique." ∧
    run (some "33234") wDb0 wLocate [wLayerA] [] "Latresne" "33" " , " false
      (fun g _ => g) 120 100 =
      Except.error "Aucune référence parcellaire valide fournie." :=
  ⟨C8_insee_failure_aborts_before_parcel_work.1 wDb0 wLocate [wLayerA] []
      "Latresne" "33" "AD 0598" false (fun g _ => g) 120 100,
   C8_insee_failure_aborts_before_parcel_work.2 "33234" wDb0 wLocate [wLayerA] []
      "Latresne" "33" " , " false (fun g _ => g) 120 100 rfl⟩

/-! ### Claim C9 -/

/-- C9: a catalog entry whose fully-qualified key contains no `'.'` is
silently dropped (no `LayerConfig`, no error, nothing in the loaded
catalog); a `coverage_by` field given as a delimited string is normalized to
the list of its comma-separated pieces, stripped, with empty pieces removed,
while a field already given as a list is kept as-is. -/
theorem C9_catalog_loader (fq : String) (e : RawEntry) :
    (fq.data.contains '.' = false →
      loadEntry fq e = none ∧
      ∀ raw, load_layer_map ((fq, e) :: raw) = load_layer_map raw) ∧
    (∀ s, e.coverage_by = CovBy.str s →
      (loadEntry fq e).map LayerConfig.coverageBy =
        (loadEntry fq e).map (fun _ =>
          (((splitOnComma s.data).map (fun c => String.mk (pyStrip c))).filter
            (fun c => c ≠ "")))) ∧
    (∀ l, e.coverage_by = CovBy.list l →
      (loadEntry fq e).map LayerConfig.coverageBy =
        (loadEntry fq e).map (fun _ => l)) := by
  refine ⟨?_, ?_, ?_⟩
  · intro hnd
    have hnd' : '.' ∉ fq.data := by simpa using hnd
    constructor
    · simp [loadEntry, hnd']
    · intro raw
      simp [load_layer_map, loadEntry, hnd']
  · intro s hs
    by_cases hd : '.' ∈ fq.data
    · simp [loadEntry, hd, hs]
    · simp [loadEntry, hd]
  · intro l hl
    by_cases hd : '.' ∈ fq.data
    · simp [loadEntry, hd, hl]
    · simp [loadEntry, hd]

theorem C9_catalog_loader_witness :
    (loadEntry "nokey" ⟨none, [], CovBy.missing⟩ = none ∧
     load_layer_map [("nokey", ⟨none, [], CovBy.missing⟩)] = []) ∧
    (loadEntry "public.plu_zonage"
        ⟨some "geom", ["typezone"], CovBy.str " typezone , libelle ,,"⟩).map
      LayerConfig.coverageBy = some ["typezone", "libelle"] ∧
    (loadEntry "public.n_zone_alea_pprn" ⟨none, [], CovBy.list ["zone_alea"]⟩).map
      LayerConfig.coverageBy = some ["zone_alea"] := by
  refine ⟨?_, ?_, ?_⟩
  · have h := (C9_catalog_loader "nokey" ⟨none, [], CovBy.missing⟩).1 (by decide)
    exact ⟨h.1, (h.2 []).trans rfl⟩
  · have h := (C9_catalog_loader "public.plu_zonage"
      ⟨some "geom", ["typezone"], CovBy.str " typezone , libelle ,,"⟩).2.1
      " typezone , libelle ,," rfl
    rw [h]
    decide
  · have h := (C9_catalog_loader "public.n_zone_alea_pprn"
      ⟨none, [], CovBy.list ["zone_alea"]⟩).2.2 ["zone_alea"] rfl
    rw [h]
    decide

/-! ### Where the executor's coverage percents come from -/

/-- Every entry of a built coverage list has
`pct_of_parcel = inter_area / parcel_area * 100` with a strictly positive
intersected area and a truthy parcel area. -/
lemma buildCovList_mem (pa : Option ℚ) (rows : List CovRow) (e : CovEntry)
    (he : e ∈ buildCovList pa rows) :
    ∃ a, pa = some a ∧ a ≠ 0 ∧
      ∃ inter : ℚ, 0 < inter ∧ e.pctOfParcel = inter / a * 100 := by
  induction rows with
  | nil => simp [buildCovList] at he
  | cons r rs ih =>
    cases pa with
    | none =>
      simp only [buildCovList] at he
      exact ih he
    | some a =>
      simp only [buildCovList] at he
      by_cases hc : 0 < r.interAreaM2.getD 0 ∧ a ≠ 0
      · rw [if_pos hc] at he
        rcases List.mem_cons.1 he with rfl | hmem
        · exact ⟨a, rfl, hc.2, r.interAreaM2.getD 0, hc.1, rfl⟩
        · exact ih hmem
      · rw [if_neg hc] at he
        exact ih he

/-- The parcel area threaded through the surface loop is either the initial
one or comes from one of the area rows. -/
lemma buildSurfaces_fst (rows : List AreaRow) : ∀ pa0 : Option ℚ,
    (buildSurfaces pa0 rows).1 = pa0 ∨
    ∃ row ∈ rows, (buildSurfaces pa0 rows).1 = some (row.parcelAreaM2.getD 0) := by
  induction rows with
  | nil => intro pa0; left; rfl
  | cons r rs ih =>
    intro pa0
    cases pa0 with
    | none =>
      have hfst : (buildSurfaces none (r :: rs)).1 =
          (buildSurfaces (some (r.parcelAreaM2.getD 0)) rs).1 := by
        simp only [buildSurfaces]
        by_cases hi : 0 < r.interAreaM2.getD 0
        · rw [if_pos hi]
        · rw [if_neg hi]
      rcases ih (some (r.parcelAreaM2.getD 0)) with h | ⟨row, hrow, hr⟩
      · right
        exact ⟨r, List.mem_cons_self _ _, by rw [hfst, h]⟩
      · right
        exact ⟨row, List.mem_cons_of_mem _ hrow, by rw [hfst, hr]⟩
    | some a =>
      have hfst : (buildSurfaces (some a) (r :: rs)).1 =
          (buildSurfaces (some a) rs).1 := by
        simp only [buildSurfaces]
        by_cases hi : 0 < r.interAreaM2.getD 0
        · rw [if_pos hi]
        · rw [if_neg hi]
      rcases ih (some a) with h | ⟨row, hrow, hr⟩
      · left
        rw [hfst, h]
      · right
        exact ⟨row, List.mem_cons_of_mem _ hrow, by rw [hfst, hr]⟩

/-- Every coverage distribution returned by the Root coverage loop is a
`buildCovList` of some oracle rows, with the loop's parcel area. -/
lemma covLoopRoot_ok (db : Db) (gj : Geom) (lyr : LayerConfig) (pa : Option ℚ) :
    ∀ cols m, (covLoopRoot db gj lyr pa cols).2 = Except.ok m →
      ∀ p ∈ m, ∃ rows, db.covQ gj lyr p.1 = Except.ok rows ∧
        p.2 = buildCovList pa rows := by
  intro cols
  induction cols with
  | nil =>
    intro m h p hp
    simp only [covLoopRoot, Except.ok.injEq] at h
    rw [← h] at hp
    simp at hp
  | cons c cs ih =>
    intro m h p hp
    simp only [covLoopRoot] at h
    cases hq : db.covQ gj lyr c with
    | error e =>
      simp only [hq] at h
      exact Except.noConfusion h
    | ok rows =>
      simp only [hq] at h
      rcases (except_map_ok _ _ _).1 h with ⟨m', hm', hmm⟩
      by_cases hemp : (buildCovList pa rows).isEmpty
      · rw [if_pos hemp] at hmm
        subst hmm
        exact ih m' hm' p hp
      · rw [if_neg hemp] at hmm
        subst hmm
        rcases List.mem_cons.1 hp with rfl | hmem
        · exact ⟨rows, hq, rfl⟩
        · exact ih m' hm' p hmem

/-- Inversion of a successful Root layer processing: the coverage map in the
produced result is the output of the coverage loop, run with the parcel area
extracted from the area query's rows. -/
lemma processLayerRootT_ok_some (db : Db) (gj : Geom) (lim : Nat)
    (lyr : LayerConfig) (res : LayerResult)
    (h : (processLayerRootT db gj lim lyr).2 = Except.ok (some res)) :
    ∃ arows, db.areaQ gj lyr
        (if (db.existingCols lyr.schema lyr.table).contains "id" then some "id"
         else none) = Except.ok arows ∧
      (covLoopRoot db gj lyr (buildSurfaces none arows).1 lyr.coverageBy).2 =
        Except.ok res.coverage := by
  simp only [processLayerRootT] at h
  split at h
  · exact Except.noConfusion h
  · split at h
    · simp at h
    · split at h
      · exact Except.noConfusion h
      · split at h
        · exact Except.noConfusion h
        · split at h
          · exact Except.noConfusion h
          · simp only [Except.ok.injEq, Option.some.injEq] at h
            rename_i x3 n hcount hn x2 valsMap hvals x1 arows harea x0 coverage hcov
            subst h
            exact ⟨arows, harea, hcov⟩

/-- Every result of a successful Root layer loop comes from a successful
layer processing. -/
lemma layersLoopRoot_results_mem (db : Db) (gj : Geom) (lim : Nat) :
    ∀ layers p, layersLoopRoot db gj lim layers = Except.ok p →
      ∀ res ∈ p.1, ∃ lyr, (processLayerRootT db gj lim lyr).2 =
        Except.ok (some res) := by
  intro layers
  induction layers with
  | nil =>
    intro p h res hres
    simp only [layersLoopRoot, Except.ok.injEq] at h
    rw [← h] at hres
    simp at hres
  | cons lyr rest ih =>
    intro p h res hres
    simp only [layersLoopRoot] at h
    cases hp : (processLayerRootT db gj lim lyr).2 with
    | error e =>
      simp only [hp] at h
      exact Except.noConfusion h
    | ok o =>
      cases o with
      | none =>
        simp only [hp] at h
        exact ih p h res hres
      | some r =>
        simp only [hp] at h
        rcases (except_map_ok _ _ _).1 h with ⟨q, hq, hqp⟩
        rw [← hqp] at hres
        rcases List.mem_cons.1 hres with rfl | hmem
        · exact ⟨lyr, hp⟩
        · exact ih q hq res hmem

/-! ### Claim C2 -/

/-- C2 counterexample: the raw coverage distributions stored in an
IntersectionResult are not capped.  With a parcel of 100 m² whose
`zone`-grouped intersected areas sum to 150 m² (overlapping source features
sharing one value), the assembled report stores a distribution whose
percents sum to 150 and whose single value's percent is 150 > 100. -/
theorem C2_counterexample_raw_coverage_exceeds_100 :
    intersectOneParcelRoot c2db [c2layer] wFeat false (fun g _ => g) 120 100 =
      Except.ok c2report ∧
    ∃ res ∈ c2report.results, ∃ cov ∈ res.coverage,
      100 + 1 / 10000 < (cov.2.map (fun e => e.pctOfParcel)).sum ∧
      ∃ e ∈ cov.2, 100 < e.pctOfParcel := by
  constructor
  · simp [intersectOneParcelRoot, parcelGeomJson, layersLoopRoot,
      processLayerRootT, valuesLoop, covLoopRoot, buildSurfaces, buildCovList,
      c2db, c2layer, wFeat, c2report, c2res, c2cov, Except.map]
  · refine ⟨_, List.mem_singleton_self _, ("zone",
        [{ value := "A", interAreaM2 := 150, pctOfParcel := 150 }]),
      List.mem_singleton_self _, ?_, ?_⟩
    · norm_num [List.map_cons, List.map_nil, List.sum_cons, List.sum_nil]
    · exact ⟨_, List.mem_singleton_self _, by norm_num⟩

/-- C2 (amended): the per-coverage-attribute lists stored in an
IntersectionResult hold the raw percents `inter_area / parcel_area * 100`;
each is strictly positive (for nonnegative stored areas), but their sum may
exceed 100 (see the counterexample).  The claimed invariant — sum at most
100 plus the 1e-4 tolerance and no single value above 100 — holds after the
Coverage Normalizer `normalize_pairs` is applied to the distribution, which
is what the report consumer (`coverage_pairs` in `cua_builder_utils.py`)
does. -/
theorem C2_normalized_coverage_invariant (db : Db) (layers : List LayerConfig)
    (feat : ParcelFeature) (ce : Bool) (carve : Geom → ℚ → Geom) (buf : ℚ)
    (lim : Nat) (r : ParcelReport)
    (hdb : ∀ gj lyr idc arows, db.areaQ gj lyr idc = Except.ok arows →
      ∀ row ∈ arows, 0 ≤ row.parcelAreaM2.getD 0)
    (h : intersectOneParcelRoot db layers feat ce carve buf lim = Except.ok r) :
    ∀ res ∈ r.results, ∀ cov ∈ res.coverage,
      (∀ e ∈ cov.2, 0 < e.pctOfParcel) ∧
      ((normalize_pairs (cov.2.map (fun e => (e.value, e.pctOfParcel)))).map
          Prod.fst).Nodup ∧
      (∀ vp ∈ normalize_pairs (cov.2.map (fun e => (e.value, e.pctOfParcel))),
        0 ≤ vp.2 ∧ vp.2 ≤ 100) ∧
      ((normalize_pairs (cov.2.map (fun e => (e.value, e.pctOfParcel)))).map
          (fun vp => vp.2)).sum ≤ 100 + 1 / 10000 := by
  intro res hres cov hcov
  simp only [intersectOneParcelRoot] at h
  rcases (except_map_ok _ _ _).1 h with ⟨p, hp, hr⟩
  have hres' : res ∈ p.1 := by
    rw [← hr] at hres
    exact hres
  rcases layersLoopRoot_results_mem db _ lim layers p hp res hres' with ⟨lyr, hproc⟩
  rcases processLayerRootT_ok_some db _ lim lyr res hproc with ⟨arows, harea, hcov2⟩
  rcases covLoopRoot_ok db _ lyr _ lyr.coverageBy res.coverage hcov2 cov hcov with
    ⟨rows, hq, hbuild⟩
  have hpos : ∀ e ∈ cov.2, 0 < e.pctOfParcel := by
    intro e he
    rw [hbuild] at he
    rcases buildCovList_mem _ _ _ he with ⟨a, hpa, hane, inter, hinter, hpct⟩
    have ha0 : 0 ≤ a := by
      rcases buildSurfaces_fst arows none with h0 | ⟨row, hrow, hfst⟩
      · rw [h0] at hpa
        cases hpa
      · rw [hfst] at hpa
        injection hpa with hpa
        rw [← hpa]
        exact hdb _ lyr _ arows harea row hrow
    have hapos : 0 < a := lt_of_le_of_ne ha0 (Ne.symm hane)
    rw [hpct]
    exact mul_pos (div_pos hinter hapos) (by norm_num)
  refine ⟨hpos, ?_⟩
  refine normalize_pairs_invariant _ ?_
  intro vp hvp
  rcases List.mem_map.1 hvp with ⟨e, he, rfl⟩
  exact (hpos e he).le

theorem C2_normalized_coverage_invariant_witness :
    (∀ e ∈ c2cov.2, 0 < e.pctOfParcel) ∧
    ((normalize_pairs (c2cov.2.map (fun e => (e.value, e.pctOfParcel)))).map
        Prod.fst).Nodup ∧
    (∀ vp ∈ normalize_pairs (c2cov.2.map (fun e => (e.value, e.pctOfParcel))),
      0 ≤ vp.2 ∧ vp.2 ≤ 100) ∧
    ((normalize_pairs (c2cov.2.map (fun e => (e.value, e.pctOfParcel)))).map
        (fun vp => vp.2)).sum ≤ 100 + 1 / 10000 :=
  C2_normalized_coverage_invariant c2db [c2layer] wFeat false (fun g _ => g)
    120 100 c2report
    (by
      intro gj lyr idc arows h row hrow
      simp only [c2db] at h
      injection h with h
      rw [← h] at hrow
      simp only [List.mem_singleton] at hrow
      subst hrow
      norm_num)
    (by
      simp [intersectOneParcelRoot, parcelGeomJson, layersLoopRoot,
        processLayerRootT, valuesLoop, covLoopRoot, buildSurfaces, buildCovList,
        c2db, c2layer, wFeat, c2report, c2res, c2cov, Except.map])
    c2res (List.mem_singleton_self _) c2cov (List.mem_singleton_self _)

end CuaLatresne
